import Mathlib

/-!
Verification of the cardiovascular-risk prediction-serving pipeline.

Shallow embedding of the Python sources:
* `src/backend/src/api/app.py`  — backend FastAPI app (risk tiering, auth +
  rate limiting, model reload, predict, batch predict);
* `src/src/api/app.py`          — legacy FastAPI app (predict with the
  decision-function branch, reload);
* `src/src/api/schemas.py`      — pydantic `PredictionRequest` validation
  (per-field bounds plus the age-adjusted heart-rate validator);
* `src/backend/src/evaluation/metrics.py` — `calculate_business_metrics`.

Python floats are modelled as exact rationals (`ℚ`); the probability /
confidence pair of the legacy predict path is modelled over `ℝ` because its
decision-function branch computes the sigmoid `1/(1+exp(-d))`.
-/

namespace CardioRisk

/-- The thirteen clinical input fields, in the model's fixed order
(`FEATURE_NAMES` in `app.py` and the declaration order of
`PredictionRequest` in `schemas.py`). -/
inductive Field : Type
  | age | sex | cp | trestbps | chol | fbs | restecg
  | thalach | exang | oldpeak | slope | ca | thal
  deriving DecidableEq, Repr

/-- A candidate inbound record: the raw numeric values of the thirteen
fields, before validation.  All values are modelled as rationals. -/
structure RawRecord : Type where
  age      : ℚ
  sex      : ℚ
  cp       : ℚ
  trestbps : ℚ
  chol     : ℚ
  fbs      : ℚ
  restecg  : ℚ
  thalach  : ℚ
  exang    : ℚ
  oldpeak  : ℚ
  slope    : ℚ
  ca       : ℚ
  thal     : ℚ
  deriving DecidableEq, Repr

/-- Projection of a record onto one field. -/
def fieldValue (f : Field) (r : RawRecord) : ℚ :=
  match f with
  | .age => r.age
  | .sex => r.sex
  | .cp => r.cp
  | .trestbps => r.trestbps
  | .chol => r.chol
  | .fbs => r.fbs
  | .restecg => r.restecg
  | .thalach => r.thalach
  | .exang => r.exang
  | .oldpeak => r.oldpeak
  | .slope => r.slope
  | .ca => r.ca
  | .thal => r.thal

/-- The `(ge, le)` bounds declared on each field of `PredictionRequest`
(`src/src/api/schemas.py` lines 30-42; identical in
`src/src/api/app.py` lines 110-122). -/
def fieldRange (f : Field) : ℚ × ℚ :=
  match f with
  | .age => (0, 120)
  | .sex => (0, 1)
  | .cp => (0, 3)
  | .trestbps => (80, 200)
  | .chol => (100, 600)
  | .fbs => (0, 1)
  | .restecg => (0, 2)
  | .thalach => (60, 220)
  | .exang => (0, 1)
  | .oldpeak => (0, 10)
  | .slope => (0, 2)
  | .ca => (0, 4)
  | .thal => (0, 3)

/-- `True` iff field `f` of record `r` satisfies its declared `ge`/`le`
bounds. -/
def inRangeB (f : Field) (r : RawRecord) : Bool :=
  decide ((fieldRange f).1 ≤ fieldValue f r) && decide (fieldValue f r ≤ (fieldRange f).2)

/-- The order in which pydantic validates the fields (their declaration
order in `PredictionRequest`). -/
def fieldOrder : List Field :=
  [.age, .sex, .cp, .trestbps, .chol, .fbs, .restecg,
   .thalach, .exang, .oldpeak, .slope, .ca, .thal]

/-- One entry of the validation error list: either a per-field bound
violation, or the age-adjusted heart-rate validator on `thalach`
(`validate_heart_rate` in `schemas.py`). -/
inductive Violation : Type
  | field (f : Field)
  | heartRate
  deriving DecidableEq, Repr

/-- Errors contributed by one field, in pydantic order: the field's own
`ge`/`le` bounds first; if `thalach` passes its bounds, the custom
`validate_heart_rate` validator runs, and it sees `age` in `values` only
when `age` itself passed its bounds (`schemas.py` lines 44-51). -/
def fieldErrors (r : RawRecord) (f : Field) : List Violation :=
  if ¬ inRangeB f r then [.field f]
  else if f = .thalach ∧ inRangeB .age r ∧ r.thalach > (220 - r.age) * (11/10) then
    [.heartRate]
  else []

/-- All violations of a candidate record, aggregated across fields
(pydantic collects every field error, it does not stop at the first). -/
def violations (r : RawRecord) : List Violation :=
  fieldOrder.flatMap (fieldErrors r)

/-- `PredictionRequest` validation: the record is accepted iff no field
reports a violation; otherwise the full aggregated list is returned. -/
def validateRecord (r : RawRecord) : Except (List Violation) RawRecord :=
  if violations r = [] then .ok r else .error (violations r)

/-- `True` iff `validateRecord` accepts the record. -/
def isValidB (r : RawRecord) : Bool :=
  match validateRecord r with
  | .ok _ => true
  | .error _ => false

/-- `_risk_level` (`src/backend/src/api/app.py` line 104-105); the same
thresholds appear inline in the legacy `predict`
(`src/src/api/app.py` lines 304-310). -/
def risk_level (probability : ℚ) : String :=
  if probability > 7/10 then "High"
  else if probability > 4/10 then "Medium"
  else "Low"

/-- Outcome of the combined auth / rate-limit dependency `get_api_key`
(`src/backend/src/api/app.py` lines 207-234). `unconfigured` is the 503
raised when no API key is configured outside development; `forbidden` the
403 for a wrong key; `rateExceeded` the distinguishable 429. -/
inductive AuthResult : Type
  | admitted
  | rateExceeded
  | forbidden
  | unconfigured
  deriving DecidableEq, Repr

/-- The sliding-window admission step inside `get_api_key` (lines
219-229): evict front timestamps strictly older than `now - 60`
(the `while bucket and bucket[0] < window_start: bucket.pop(0)` loop),
reject when the remaining window already holds `limit` entries (the
eviction persists, nothing is appended), otherwise admit and append
`now`. Returns (admitted?, new window). -/
def rateLimitStep (limit : ℕ) (bucket : List ℚ) (now : ℚ) : Bool × List ℚ :=
  let pruned := bucket.dropWhile (fun t => t < now - 60)
  if limit ≤ pruned.length then (false, pruned)
  else (true, pruned ++ [now])

/-- `get_api_key` (`src/backend/src/api/app.py` lines 207-234) for one
credential's bucket: with no configured key, development mode admits
without rate limiting and any other mode answers 503; with a configured
key, a matching presented key goes through the rate-limit window and a
mismatch is a 403. -/
def get_api_key (apiKey : Option String) (envIsDev : Bool) (limit : ℕ)
    (presented : String) (bucket : List ℚ) (now : ℚ) : AuthResult × List ℚ :=
  match apiKey with
  | none => if envIsDev then (.admitted, bucket) else (.unconfigured, bucket)
  | some k =>
    if presented = k then
      let s := rateLimitStep limit bucket now
      (if s.1 then .admitted else .rateExceeded, s.2)
    else (.forbidden, bucket)

/-- Fold a sequence of admission attempts (their timestamps) through
`rateLimitStep`, returning the final window and the per-attempt admission
results. -/
def runAttempts (limit : ℕ) (bucket : List ℚ) : List ℚ → List ℚ × List Bool
  | [] => (bucket, [])
  | t :: ts =>
    let s := rateLimitStep limit bucket t
    let rest := runAttempts limit s.2 ts
    (rest.1, s.1 :: rest.2)

/-- The model-host global state of the backend app: the `model` global and
the `loaded` / `version` / `loaded_at` entries of `model_metadata`
(`src/backend/src/api/app.py` lines 88-97). `α` is the opaque type of a
loaded artifact (the object `joblib.load` returns). -/
structure HostState (α : Type) : Type where
  model : Option α
  loaded : Bool
  version : String
  loadedAt : Option String
  deriving DecidableEq, Repr

/-- The state at process start: no model, `loaded = False`,
`version = "unknown"` (lines 88, 93-97). -/
def initState (α : Type) : HostState α :=
  { model := none, loaded := false, version := "unknown", loadedAt := none }

/-- How a reload attempt ended: 404 (file missing), load failure
(`joblib.load` raised on a corrupt artifact), or success. -/
inductive ReloadOutcome : Type
  | notFound
  | loadFailed
  | reloaded
  deriving DecidableEq, Repr

/-- `model_reload` (`src/backend/src/api/app.py` lines 294-304).
`disk` is the result of `joblib.load` on the artifact path: `none` models
a raised exception (corrupt artifact), which propagates before any global
is assigned; `pathExists = false` is answered with a 404 before the lock
is taken. -/
def model_reload {α : Type} (pathExists : Bool) (disk : Option α)
    (now : String) (st : HostState α) : ReloadOutcome × HostState α :=
  if ¬ pathExists then (.notFound, st)
  else
    match disk with
    | none => (.loadFailed, st)
    | some a => (.reloaded, { st with model := some a, loaded := true, loadedAt := some now })

/-- `reload_model` of the legacy app (`src/src/api/app.py` lines
358-395): same shape, but a successful reload also stamps
`version = "1.0.0"`. Failures (missing file, `joblib.load` raising) are
turned into error responses with every global untouched. -/
def reload_model {α : Type} (pathExists : Bool) (disk : Option α)
    (now : String) (st : HostState α) : ReloadOutcome × HostState α :=
  if ¬ pathExists then (.notFound, st)
  else
    match disk with
    | none => (.loadFailed, st)
    | some a =>
      (.reloaded,
       { st with model := some a, loaded := true, version := "1.0.0", loadedAt := some now })

/-- What the startup handler found at `METADATA_PATH`: the file is
missing, `json.load` raised, or it produced a version string
(`src/backend/src/api/app.py` lines 247-254). -/
inductive MetaCase : Type
  | missing
  | corrupt
  | ok (v : String)
  deriving DecidableEq, Repr

/-- The state-changing operations of the backend app, with the outcomes
of their environment interactions as data: `startup` is the `load_model`
startup hook (lines 238-259; `prodKeyMissing` models the guard that
raises when `API_KEY` is unset outside development), `reload` is
`model_reload`, and `predictOp` is a call to `predict`, which reads
`model` into a local and never mutates the globals. -/
inductive HostOp (α : Type) : Type
  | startup (prodKeyMissing : Bool) (pathExists : Bool) (disk : Option α) (meta : MetaCase)
  | reload (pathExists : Bool) (disk : Option α)
  | predictOp

/-- State transition of one backend operation. In `startup`, every raised
exception is caught and logged (lines 258-259), so each failure point
leaves the globals as they were at that point: the production-key guard
and a failed `joblib.load` mutate nothing; a `json.load` failure happens
after `model` and `loaded` were already set but before `version` and
`loaded_at` are. -/
def hostStep {α : Type} (now : String) : HostOp α → HostState α → HostState α
  | .startup pkm pe disk meta, st =>
    if pkm then st
    else if ¬ pe then st
    else
      match disk with
      | none => st
      | some a =>
        let st1 := { st with model := some a, loaded := true }
        match meta with
        | .corrupt => st1
        | .missing => { st1 with version := "unknown", loadedAt := some now }
        | .ok v => { st1 with version := v, loadedAt := some now }
  | .reload pe disk, st => (model_reload pe disk now st).2
  | .predictOp, st => st

/-- The invariant of claim C10: `model_metadata["loaded"]` tracks
`model is not None`. -/
def hostInv {α : Type} (st : HostState α) : Prop :=
  st.loaded = st.model.isSome

/-- The status string of `health_check` (lines 272-279). -/
def healthStatus {α : Type} (st : HostState α) : String :=
  if st.loaded then "healthy" else "degraded"

/-- `True` iff `predict` and `batch_predict` would answer 503
("Model is not loaded", lines 309-311 and 338-340). -/
def modelUnavailable {α : Type} (st : HostState α) : Bool :=
  st.model.isNone

/-- The probability-related capabilities of a loaded model object at one
input row: `label` is `model.predict(x)[0]`; `proba` is
`predict_proba(x)[0]` when the attribute exists (a binary classifier's
two class probabilities); `decision` is `decision_function(x)[0]` when
that attribute exists. -/
structure ModelIface : Type where
  label : ℤ
  proba : Option (ℝ × ℝ)
  decision : Option ℝ

/-- Probability and confidence of `_model_predict`
(`src/backend/src/api/app.py` lines 108-117) at one row: with
`predict_proba`, the positive-class probability and the row maximum;
otherwise the hard label as a float and 1.0. `decision_function` is never
consulted. -/
noncomputable def modelPredictProbConf (m : ModelIface) : ℝ × ℝ :=
  match m.proba with
  | some pq => (pq.2, max pq.1 pq.2)
  | none => ((m.label : ℝ), 1)

/-- Probability and confidence of the legacy `predict`
(`src/src/api/app.py` lines 286-302): with `predict_proba` as in the
backend; without it but with `decision_function`, the sigmoid
`1/(1+exp(-d))` of the decision value and `abs(d)`; with neither, the
hard label and 1.0. -/
noncomputable def srcPredictProbConf (m : ModelIface) : ℝ × ℝ :=
  match m.proba with
  | some pq => (pq.2, max pq.1 pq.2)
  | none =>
    match m.decision with
    | some d => (1 / (1 + Real.exp (-d)), |d|)
    | none => ((m.label : ℝ), 1)

/-- The `detail` field of the 500 response raised by the backend
`predict` when the model call fails
(`src/backend/src/api/app.py` lines 331-333): a constant, the exception's
text is only logged. -/
def backendPredictErrorDetail (_msg : String) : String :=
  "Internal prediction error"

/-- The `detail` field of the 500 response raised by the legacy `predict`
when the model call fails (`src/src/api/app.py` lines 322-327):
`f"Prediction failed: {str(e)}"`. -/
def srcPredictErrorDetail (msg : String) : String :=
  "Prediction failed: " ++ msg

/-- Confusion counts of `sklearn.metrics.confusion_matrix(y_true,
y_pred).ravel()` for binary labels, as (tn, fp, fn, tp). Labels are
modelled as `Bool` (positive = `true`). -/
def confusionCounts (yTrue yPred : List Bool) : ℕ × ℕ × ℕ × ℕ :=
  let pairs := yTrue.zip yPred
  (pairs.countP (fun q => !q.1 && !q.2),
   pairs.countP (fun q => !q.1 && q.2),
   pairs.countP (fun q => q.1 && !q.2),
   pairs.countP (fun q => q.1 && q.2))

/-- Result of `calculate_business_metrics`. -/
structure BusinessMetrics : Type where
  total_cost : ℚ
  avg_cost_per_prediction : ℚ
  false_positives : ℕ
  false_negatives : ℕ
  cost_fp : ℚ
  cost_fn : ℚ
  deriving DecidableEq, Repr

/-- `calculate_business_metrics`
(`src/backend/src/evaluation/metrics.py` lines 158-190):
`total_cost = fp*cost_fp + fn*cost_fn`,
`avg_cost_per_prediction = total_cost / len(y_true)`. -/
def calculate_business_metrics (yTrue yPred : List Bool)
    (costFp costFn : ℚ) : BusinessMetrics :=
  let c := confusionCounts yTrue yPred
  let fp := c.2.1
  let fn := c.2.2.1
  let totalCost := (fp : ℚ) * costFp + (fn : ℚ) * costFn
  { total_cost := totalCost
    avg_cost_per_prediction := totalCost / (yTrue.length : ℚ)
    false_positives := fp
    false_negatives := fn
    cost_fp := costFp
    cost_fn := costFn }

/-- One row of a batch response (`PredictionResponse` restricted to the
numeric payload; timestamp / request id carry no logic). -/
structure PredRow : Type where
  prediction : ℤ
  probability : ℚ
  riskLevelOut : String
  confidence : ℚ
  deriving DecidableEq, Repr

/-- One entry of the batch error list: `{"index": idx, "error": str(exc)}`
for a per-item validation failure, or the index-less
`{"error": "No valid instances"}` fallback (modelled as `index = none`,
empty violation list). -/
structure BatchError : Type where
  index : Option ℕ
  errViolations : List Violation
  deriving DecidableEq, Repr

/-- `BatchPredictionResponse` as built by the backend handler. -/
structure BatchResponse : Type where
  predictions : List PredRow
  errors : Option (List BatchError)
  total : ℕ
  deriving DecidableEq, Repr

/-- Result of the batch endpoint: 503 when no model is loaded, otherwise
a response. -/
inductive BatchResult : Type
  | unavailable
  | ok (r : BatchResponse)
  deriving DecidableEq, Repr

/-- The `except` half of the per-item loop of `batch_predict`: an indexed
error entry when the instance fails validation, nothing otherwise. -/
def errEntry (p : ℕ × RawRecord) : Option BatchError :=
  match validateRecord p.2 with
  | .ok _ => none
  | .error vs => some { index := some p.1, errViolations := vs }

/-- The `try: valid_instances.append(...)` half of the loop: the
validated record, or nothing on failure. -/
def validOpt (x : RawRecord) : Option RawRecord :=
  match validateRecord x with
  | .ok v => some v
  | .error _ => none

/-- Core of `batch_predict` (`src/backend/src/api/app.py` lines 342-391)
for a loaded model `m` (the per-row behaviour of the batched
`_model_predict` call, returning (label, probability, confidence)):
validate each instance in order, collecting `{"index": idx, "error": ...}`
entries for failures and the validated records otherwise; if nothing
validated, answer with no predictions and the error list (or the
"No valid instances" fallback); otherwise score all validated rows in one
batched call and zip the rows back in order. -/
def batch_predict_core (m : RawRecord → ℤ × ℚ × ℚ)
    (instances : List RawRecord) : BatchResponse :=
  let errors := instances.enum.filterMap errEntry
  let valids := instances.filterMap validOpt
  if valids.isEmpty then
    { predictions := []
      errors := some (if errors.isEmpty then [{ index := none, errViolations := [] }] else errors)
      total := 0 }
  else
    let rows := valids.map (fun r =>
      let t := m r
      { prediction := t.1, probability := t.2.1,
        riskLevelOut := risk_level t.2.1, confidence := t.2.2 : PredRow })
    { predictions := rows
      errors := if errors.isEmpty then none else some errors
      total := rows.length }

/-- The `/batch-predict` handler (lines 336-394): 503 when the model
reference is `None`, otherwise the core. -/
def batch_predict (mo : Option (RawRecord → ℤ × ℚ × ℚ))
    (instances : List RawRecord) : BatchResult :=
  match mo with
  | none => .unavailable
  | some m => .ok (batch_predict_core m instances)

/-- The legacy `BatchPredictionResponse` (`src/src/api/app.py` lines
155-159): predictions and a processed count only — the type has no error
list, so skipped items leave no trace in the response. -/
structure SrcBatchResponse : Type where
  predictions : List PredRow
  total_processed : ℕ
  deriving DecidableEq, Repr

/-- Request parsing of the legacy `/batch-predict`: its
`BatchPredictionRequest` declares `instances: List[PredictionRequest]`
(`src/src/api/app.py` lines 151-153), so pydantic validates every item
while parsing the request body. Any bound-violating item rejects the
whole request with a 422 (carrying the items' aggregated violations)
before the handler runs; only a batch in which every item validates
reaches the handler. -/
def src_batch_parse (instances : List RawRecord) :
    Except (List Violation) (List RawRecord) :=
  if instances.all isValidB then .ok instances
  else .error (instances.flatMap violations)

/-- The legacy `batch_predict` handler body (`src/src/api/app.py` lines
341-356) on an already-parsed request, after the model-loaded 503 check:
each instance is scored by `await predict(instance)`; when that call
raises, the item is skipped with `continue` and nothing is recorded.
`pm` returns `none` for a row on which `predict` raises. -/
def src_batch_predict (pm : RawRecord → Option (ℤ × ℚ × ℚ))
    (instances : List RawRecord) : SrcBatchResponse :=
  let preds := instances.filterMap (fun r =>
    (pm r).map (fun t =>
      { prediction := t.1, probability := t.2.1,
        riskLevelOut := risk_level t.2.1, confidence := t.2.2 : PredRow }))
  { predictions := preds, total_processed := preds.length }

/-- Concrete evaluation labels realizing TN=50, FP=5, FN=2, TP=43: the
first 55 samples are truly negative, the last 45 truly positive. -/
def yTrueDemo : List Bool :=
  List.replicate 55 false ++ List.replicate 45 true

/-- Concrete predictions matching `yTrueDemo`: 50 true negatives, then
5 false positives, then 2 false negatives, then 43 true positives. -/
def yPredDemo : List Bool :=
  List.replicate 50 false ++ List.replicate 5 true ++
  List.replicate 2 false ++ List.replicate 43 true

/-- A record that passes validation (the schema's own documented
example). -/
def demoRecordOk : RawRecord :=
  ⟨63, 1, 3, 145, 233, 1, 0, 150, 0, 23/10, 0, 0, 1⟩

/-- A record violating the trestbps bound (250 > 200). -/
def demoRecordBad : RawRecord :=
  ⟨50, 1, 0, 250, 200, 0, 0, 150, 0, 1, 1, 0, 2⟩

/-- A 3-item batch whose middle item (0-based index 1) violates a
bound. -/
def demoBatch : List RawRecord :=
  [demoRecordOk, demoRecordBad, demoRecordOk]

/-- A stand-in for the per-row behaviour of a loaded model in the batch
scenario. -/
def demoModel : RawRecord → ℤ × ℚ × ℚ :=
  fun _ => (1, 1/2, 3/5)

/-- The same stand-in model for the legacy per-item `predict` calls,
which never raises. -/
def demoModelSrc : RawRecord → Option (ℤ × ℚ × ℚ) :=
  fun _ => some (1, 1/2, 3/5)

end CardioRisk

namespace CardioRisk

/-- **C1** For every probability p, the risk-tier function returns exactly
one of three labels: "High" iff p > 0.7, "Medium" iff 0.4 < p ≤ 0.7, and
"Low" iff p ≤ 0.4; the three cases are exhaustive and non-overlapping. -/
theorem risk_level_trichotomy (p : ℚ) :
    (risk_level p = "High" ↔ p > 7/10) ∧
    (risk_level p = "Medium" ↔ 4/10 < p ∧ p ≤ 7/10) ∧
    (risk_level p = "Low" ↔ p ≤ 4/10) ∧
    (risk_level p = "High" ∨ risk_level p = "Medium" ∨ risk_level p = "Low") := by
  unfold risk_level
  split_ifs with h1 h2 <;> refine ⟨?_, ?_, ?_, ?_⟩ <;> simp_all <;> linarith

/-- **C4 counterexample** The record (age 50, sex 1, cp 0, trestbps 80,
chol 200, fbs 0, restecg 0, thalach 150, exang 0, oldpeak 6, slope 1,
ca 0, thal 2) passes every per-field bound check, satisfies
trestbps − oldpeak×10 = 20 < 30, and is nevertheless accepted by the
validator: no hemodynamic-consistency check exists in the code. -/
theorem validator_accepts_hemodynamic_violation :
    validateRecord ⟨50, 1, 0, 80, 200, 0, 0, 150, 0, 6, 1, 0, 2⟩
        = .ok ⟨50, 1, 0, 80, 200, 0, 0, 150, 0, 6, 1, 0, 2⟩ ∧
    (80 : ℚ) - 6 * 10 < 30 := by
  constructor
  · norm_num [validateRecord, violations, fieldOrder, fieldErrors, inRangeB,
      fieldValue, fieldRange]
  · norm_num

/-- **C4 amended** The validator applies only per-field bound checks and
the age-adjusted heart-rate rule; it performs no hemodynamic-consistency
check, so every record with an empty violation list is accepted even when
trestbps − oldpeak×10 < 30. -/
theorem validator_no_hemodynamic_rule (r : RawRecord)
    (hv : violations r = []) (_hhemo : r.trestbps - r.oldpeak * 10 < 30) :
    validateRecord r = .ok r := by
  unfold validateRecord
  simp [hv]

/-- Witness for C4 at the concrete hemodynamically inconsistent record. -/
theorem validator_no_hemodynamic_rule_witness :
    validateRecord ⟨50, 1, 0, 80, 200, 0, 0, 150, 0, 6, 1, 0, 2⟩
      = .ok ⟨50, 1, 0, 80, 200, 0, 0, 150, 0, 6, 1, 0, 2⟩ :=
  validator_no_hemodynamic_rule ⟨50, 1, 0, 80, 200, 0, 0, 150, 0, 6, 1, 0, 2⟩
    (by norm_num [violations, fieldOrder, fieldErrors, inRangeB, fieldValue, fieldRange])
    (by norm_num)

/-- **C5 counterexample** trestbps = 250 lies inside the claimed range
[50, 300], yet the record (age 50, sex 1, cp 0, trestbps 250, chol 200,
fbs 0, restecg 0, thalach 150, exang 0, oldpeak 1, slope 1, ca 0, thal 2)
is rejected with a trestbps violation: the schema declares
trestbps ∈ [80, 200], not [50, 300]. -/
theorem schema_range_differs_from_claim :
    ((50 : ℚ) ≤ 250 ∧ (250 : ℚ) ≤ 300) ∧
    validateRecord ⟨50, 1, 0, 250, 200, 0, 0, 150, 0, 1, 1, 0, 2⟩
      = .error [.field .trestbps] := by
  constructor
  · norm_num
  · norm_num [validateRecord, violations, fieldOrder, fieldErrors, inRangeB,
      fieldValue, fieldRange]

/-- **C5 amended** Request validation accepts exactly the per-field
ranges the schema declares — age [0,120], sex [0,1], cp [0,3],
trestbps [80,200], chol [100,600], fbs [0,1], restecg [0,2],
thalach [60,220], exang [0,1], oldpeak [0,10], slope [0,2], ca [0,4],
thal [0,3]: a field contributes a field-level violation iff its value is
outside its declared range, and the record is accepted iff no check
reports a violation. -/
theorem per_field_bounds_characterization (r : RawRecord) (f : Field) :
    (Violation.field f ∈ violations r ↔ ¬ inRangeB f r = true) ∧
    (validateRecord r = .ok r ↔ violations r = []) := by
  constructor
  · simp only [violations, List.mem_flatMap]
    constructor
    · rintro ⟨g, -, hmem⟩
      unfold fieldErrors at hmem
      split_ifs at hmem with h1 h2 <;> simp_all
    · intro h
      refine ⟨f, ?_, ?_⟩
      · cases f <;> simp [fieldOrder]
      · unfold fieldErrors
        simp [h]
  · unfold validateRecord
    split_ifs with h
    · simp [h]
    · simp [h]

/-- **C6** A reload attempt that fails — the artifact file is missing or
`joblib.load` raises on a corrupt artifact — leaves the model-host state
(the active model object, the loaded flag, the reported version and load
timestamp) exactly as it was, and reports a non-success outcome to the
caller, in both the backend `model_reload` and the legacy
`reload_model`. -/
theorem reload_failure_preserves_state {α : Type} (st : HostState α)
    (pathExists : Bool) (disk : Option α) (now : String)
    (hfail : pathExists = false ∨ disk = none) :
    (model_reload pathExists disk now st).2 = st ∧
    (model_reload pathExists disk now st).1 ≠ .reloaded ∧
    (reload_model pathExists disk now st).2 = st ∧
    (reload_model pathExists disk now st).1 ≠ .reloaded := by
  unfold model_reload reload_model
  rcases hfail with h | h
  · subst h; simp
  · subst h; cases pathExists <;> simp

/-- Witness for C6: a corrupt-artifact reload from the initial state. -/
theorem reload_failure_preserves_state_witness :
    (model_reload true (none : Option ℕ) "t" (initState ℕ)).2 = initState ℕ ∧
    (model_reload true (none : Option ℕ) "t" (initState ℕ)).1 ≠ .reloaded ∧
    (reload_model true (none : Option ℕ) "t" (initState ℕ)).2 = initState ℕ ∧
    (reload_model true (none : Option ℕ) "t" (initState ℕ)).1 ≠ .reloaded :=
  reload_failure_preserves_state (initState ℕ) true none "t" (Or.inr rfl)

/-- **C10** `model_metadata["loaded"] = (model is not None)` holds
initially and is preserved by startup load, reload (successful or not)
and predict; under the invariant, the health endpoint reports "degraded"
exactly in the states where predict / batch-predict answer the 503
model-unavailable error. -/
theorem loaded_flag_invariant :
    (∀ (α : Type), hostInv (initState α)) ∧
    (∀ (α : Type) (now : String) (op : HostOp α) (st : HostState α),
      hostInv st → hostInv (hostStep now op st)) ∧
    (∀ (α : Type) (st : HostState α),
      hostInv st → (healthStatus st = "degraded" ↔ modelUnavailable st = true)) := by
  refine ⟨fun α => rfl, ?_, ?_⟩
  · intro α now op st h
    unfold hostInv at h ⊢
    cases op with
    | startup pkm pe disk meta =>
      cases disk <;> cases meta <;>
        simp only [hostStep] <;> split_ifs <;> simp_all
    | reload pe disk =>
      cases disk <;> simp only [hostStep, model_reload] <;> split_ifs <;> simp_all
    | predictOp => exact h
  · intro α st h
    unfold hostInv at h
    unfold healthStatus modelUnavailable
    cases hm : st.model <;> rw [hm] at h <;> simp_all

/-- Witness for C10: the initial state satisfies the invariant, a failed
reload from it preserves the invariant, and its health status matches
predict availability. -/
theorem loaded_flag_invariant_witness :
    hostInv (initState ℕ) ∧
    hostInv (hostStep "t" (HostOp.reload true none) (initState ℕ)) ∧
    (healthStatus (initState ℕ) = "degraded" ↔ modelUnavailable (initState ℕ) = true) :=
  ⟨loaded_flag_invariant.1 ℕ,
   loaded_flag_invariant.2.1 ℕ "t" (HostOp.reload true none) (initState ℕ)
     (loaded_flag_invariant.1 ℕ),
   loaded_flag_invariant.2.2 ℕ (initState ℕ) (loaded_flag_invariant.1 ℕ)⟩

/-- If no element of the list satisfies the predicate, `dropWhile`
removes nothing. -/
theorem dropWhile_eq_self_of_all {α : Type} (l : List α) (p : α → Bool)
    (h : ∀ x ∈ l, p x = false) : l.dropWhile p = l := by
  cases l with
  | nil => rfl
  | cons a t => simp [List.dropWhile_cons, h a (by simp)]

/-- If every element of the list satisfies the predicate, `dropWhile`
removes everything. -/
theorem dropWhile_eq_nil_of_all {α : Type} (l : List α) (p : α → Bool)
    (h : ∀ x ∈ l, p x = true) : l.dropWhile p = [] := by
  induction l with
  | nil => rfl
  | cons a t ih =>
    rw [List.dropWhile_cons, h a (by simp)]
    exact ih fun x hx => h x (by simp [hx])

/-- Starting from a window whose entries all lie in the trailing 60
seconds of `tEnd`, a run of attempts at times within that same window
admits every attempt and appends every timestamp, as long as the total
count stays within the limit. -/
theorem runAttempts_all_admit (N : ℕ) (tEnd : ℚ) :
    ∀ (ts acc : List ℚ),
      (∀ s ∈ acc, tEnd - 60 ≤ s) →
      (∀ s ∈ ts, tEnd - 60 ≤ s ∧ s ≤ tEnd) →
      acc.length + ts.length ≤ N →
      runAttempts N acc ts = (acc ++ ts, List.replicate ts.length true) := by
  intro ts
  induction ts with
  | nil =>
    intro acc _ _ _
    simp [runAttempts]
  | cons t ts ih =>
    intro acc hacc hts hlen
    have ht := hts t (by simp)
    have hstep : rateLimitStep N acc t = (true, acc ++ [t]) := by
      unfold rateLimitStep
      have hpr : acc.dropWhile (fun s => decide (s < t - 60)) = acc := by
        apply dropWhile_eq_self_of_all
        intro x hx
        simp only [decide_eq_false_iff_not, not_lt]
        have hx60 := hacc x hx
        linarith [ht.2]
      rw [hpr]
      have hlt : ¬ (N ≤ acc.length) := by
        simp only [List.length_cons] at hlen
        omega
      simp [hlt]
    simp only [runAttempts, hstep]
    rw [ih (acc ++ [t])
      (by
        intro s hs
        rcases List.mem_append.mp hs with hs | hs
        · exact hacc s hs
        · simp only [List.mem_singleton] at hs
          exact hs ▸ ht.1)
      (fun s hs => hts s (by simp [hs]))
      (by simp only [List.length_append, List.length_cons, List.length_nil] at hlen ⊢; omega)]
    simp [List.replicate_succ]

/-- **C3** Per-credential sliding window: each attempt first evicts that
credential's timestamps older than 60 seconds, then admits iff the
remaining window holds fewer than N entries, appending the attempt's
timestamp on admission. Starting from an empty window, N attempts within
one 60-second window are all admitted; the (N+1)th attempt inside that
window is rejected with the distinguishable rate-exceeded outcome and
leaves the window unchanged (no timestamp added); and once the window
has fully elapsed the next attempt is admitted again. -/
theorem rate_limiter_window (N : ℕ) (hN : 0 < N) (k : String)
    (envIsDev : Bool) (ts : List ℚ) (t1 t2 : ℚ)
    (hlen : ts.length = N)
    (hwin : ∀ s ∈ ts, t1 - 60 ≤ s ∧ s ≤ t1)
    (hafter : ∀ s ∈ ts, s < t2 - 60) :
    runAttempts N [] ts = (ts, List.replicate N true) ∧
    get_api_key (some k) envIsDev N k ts t1 = (.rateExceeded, ts) ∧
    get_api_key (some k) envIsDev N k ts t2 = (.admitted, [t2]) := by
  refine ⟨?_, ?_, ?_⟩
  · have h := runAttempts_all_admit N t1 ts [] (by simp) hwin (by simp [hlen])
    simpa [hlen] using h
  · have hpr : ts.dropWhile (fun s => decide (s < t1 - 60)) = ts := by
      apply dropWhile_eq_self_of_all
      intro x hx
      simp only [decide_eq_false_iff_not, not_lt]
      exact (hwin x hx).1
    have hs : rateLimitStep N ts t1 = (false, ts) := by
      simp only [rateLimitStep, hpr]
      simp [hlen]
    simp [get_api_key, hs]
  · have hpr : ts.dropWhile (fun s => decide (s < t2 - 60)) = [] := by
      apply dropWhile_eq_nil_of_all
      intro x hx
      simpa using hafter x hx
    have hs : rateLimitStep N ts t2 = (true, [t2]) := by
      simp only [rateLimitStep, hpr]
      have hne : ¬ (N ≤ (0 : ℕ)) := by omega
      simp [hne]
    simp [get_api_key, hs]

/-- Witness for C3: limit 2, admissions at times 10 and 20, a third
attempt at time 30 (inside the window) rejected, an attempt at time 100
(window elapsed) admitted. -/
theorem rate_limiter_window_witness :
    runAttempts 2 [] [10, 20] = ([10, 20], List.replicate 2 true) ∧
    get_api_key (some "key") false 2 "key" [10, 20] 30 = (.rateExceeded, [10, 20]) ∧
    get_api_key (some "key") false 2 "key" [10, 20] 100 = (.admitted, [100]) :=
  rate_limiter_window 2 (by norm_num) "key" false [10, 20] 30 100 rfl
    (by
      intro s hs
      rcases List.mem_cons.mp hs with h | h
      · subst h; constructor <;> norm_num
      · simp only [List.mem_singleton] at h
        subst h; constructor <;> norm_num)
    (by
      intro s hs
      rcases List.mem_cons.mp hs with h | h
      · subst h; norm_num
      · simp only [List.mem_singleton] at h
        subst h; norm_num)

/-- **C7 counterexample** A model object with no `predict_proba` but with
a `decision_function` returning 2: the legacy predict path returns
confidence |2| = 2 ≠ 1.0, and its probability 1/(1+exp(−2)) differs from
the hard class label 1 — contradicting "no predict_proba implies
probability equals the hard label and confidence equals 1.0". -/
theorem decision_function_contradicts_claim :
    (srcPredictProbConf ⟨1, none, some 2⟩).2 ≠ 1 ∧
    (srcPredictProbConf ⟨1, none, some 2⟩).1 ≠ (((1 : ℤ) : ℝ)) := by
  constructor
  · show |(2 : ℝ)| ≠ 1
    rw [abs_of_pos (by norm_num)]
    norm_num
  · show 1 / (1 + Real.exp (-2)) ≠ (((1 : ℤ) : ℝ))
    have hexp := Real.exp_pos (-2 : ℝ)
    have hlt : 1 / (1 + Real.exp (-2)) < 1 := by
      rw [div_lt_one (by linarith)]
      linarith
    push_cast
    linarith

/-- **C7 amended** With `predict_proba` exposed, both predict paths
return the positive-class probability and the maximum class probability.
With neither `predict_proba` nor `decision_function`, both return the
hard class label and confidence 1.0. With `decision_function` but no
`predict_proba`, the backend `_model_predict` still returns the hard
label and 1.0, but the legacy predict path returns the sigmoid of the
decision value as probability and its absolute value as confidence. -/
theorem probability_interface_amended (m0 m1 m2 : ModelIface)
    (h0p : m0.proba = none) (h0d : m0.decision = none)
    (p0 p1 : ℝ) (h1 : m1.proba = some (p0, p1))
    (d : ℝ) (h2p : m2.proba = none) (h2d : m2.decision = some d) :
    srcPredictProbConf m0 = ((m0.label : ℝ), 1) ∧
    modelPredictProbConf m0 = ((m0.label : ℝ), 1) ∧
    srcPredictProbConf m1 = (p1, max p0 p1) ∧
    modelPredictProbConf m1 = (p1, max p0 p1) ∧
    modelPredictProbConf m2 = ((m2.label : ℝ), 1) ∧
    srcPredictProbConf m2 = (1 / (1 + Real.exp (-d)), |d|) := by
  unfold srcPredictProbConf modelPredictProbConf
  rw [h0p, h0d, h1, h2p, h2d]
  exact ⟨rfl, rfl, rfl, rfl, rfl, rfl⟩

/-- Witness for C7 at three concrete model objects: proba-less and
decision-less, binary predict_proba (0.25, 0.75), and decision-only with
decision value 2. -/
theorem probability_interface_amended_witness :
    srcPredictProbConf ⟨0, none, none⟩ = (((0 : ℤ) : ℝ), 1) ∧
    modelPredictProbConf ⟨0, none, none⟩ = (((0 : ℤ) : ℝ), 1) ∧
    srcPredictProbConf ⟨1, some (1/4, 3/4), none⟩ = ((3/4 : ℝ), max (1/4) (3/4)) ∧
    modelPredictProbConf ⟨1, some (1/4, 3/4), none⟩ = ((3/4 : ℝ), max (1/4) (3/4)) ∧
    modelPredictProbConf ⟨1, none, some 2⟩ = (((1 : ℤ) : ℝ), 1) ∧
    srcPredictProbConf ⟨1, none, some 2⟩ = (1 / (1 + Real.exp (-2)), |(2 : ℝ)|) :=
  probability_interface_amended ⟨0, none, none⟩ ⟨1, some (1/4, 3/4), none⟩
    ⟨1, none, some 2⟩ rfl rfl (1/4) (3/4) rfl 2 rfl rfl

/-- **C8 counterexample** For the model-call failure whose exception text
is "boom", the legacy predict path's 500 response detail is
"Prediction failed: boom", which contains the exception text —
contradicting "the body never contains the internal exception's
text". -/
theorem src_error_detail_contains_exception_text :
    ∃ a b : String, srcPredictErrorDetail "boom" = a ++ "boom" ++ b :=
  ⟨"Prediction failed: ", "", rfl⟩

/-- **C8 amended** The backend predict path converts every model-call
failure to the constant detail "Internal prediction error", independent
of the exception; the legacy predict path instead reports
"Prediction failed: " followed by the exception's text. -/
theorem prediction_error_detail_amended (msg msg2 : String) :
    backendPredictErrorDetail msg = backendPredictErrorDetail msg2 ∧
    backendPredictErrorDetail msg = "Internal prediction error" ∧
    srcPredictErrorDetail msg = "Prediction failed: " ++ msg :=
  ⟨rfl, rfl, rfl⟩

/-- **C9** `calculate_business_metrics` returns
`total_cost = FP*cost_fp + FN*cost_fn` (FP and FN counted from the
zipped label/prediction pairs) and
`avg_cost_per_prediction = total_cost / len(y_true)`. -/
theorem business_metrics_formula (yTrue yPred : List Bool)
    (costFp costFn : ℚ)
    (hlen : yTrue.length = yPred.length) (hpos : 0 < yTrue.length) :
    (calculate_business_metrics yTrue yPred costFp costFn).total_cost
      = ((yTrue.zip yPred).countP (fun q => !q.1 && q.2) : ℚ) * costFp
        + ((yTrue.zip yPred).countP (fun q => q.1 && !q.2) : ℚ) * costFn ∧
    (calculate_business_metrics yTrue yPred costFp costFn).avg_cost_per_prediction
      = (calculate_business_metrics yTrue yPred costFp costFn).total_cost
        / (yTrue.length : ℚ) ∧
    (calculate_business_metrics yTrue yPred costFp costFn).false_positives
      = (yTrue.zip yPred).countP (fun q => !q.1 && q.2) ∧
    (calculate_business_metrics yTrue yPred costFp costFn).false_negatives
      = (yTrue.zip yPred).countP (fun q => q.1 && !q.2) :=
  ⟨rfl, rfl, rfl, rfl⟩

/-- Witness for C9: TN=50, FP=5, FN=2, TP=43 with cost_fp=1, cost_fn=10
gives total_cost = 25 and avg_cost_per_prediction = 0.25. -/
theorem business_metrics_formula_witness :
    (calculate_business_metrics yTrueDemo yPredDemo 1 10).total_cost = 25 ∧
    (calculate_business_metrics yTrueDemo yPredDemo 1 10).avg_cost_per_prediction
      = 1/4 := by
  have h := business_metrics_formula yTrueDemo yPredDemo 1 10 (by decide) (by decide)
  have hfp : ((yTrueDemo.zip yPredDemo).countP (fun q => !q.1 && q.2)) = 5 := by decide
  have hfn : ((yTrueDemo.zip yPredDemo).countP (fun q => q.1 && !q.2)) = 2 := by decide
  have hn : (yTrueDemo.length : ℚ) = 100 := by norm_num [yTrueDemo]
  have htotal : (calculate_business_metrics yTrueDemo yPredDemo 1 10).total_cost = 25 := by
    rw [h.1, hfp, hfn]
    norm_num
  refine ⟨htotal, ?_⟩
  rw [h.2.1, htotal, hn]
  norm_num

/-- The length of a `filterMap` counts the inputs the function keeps. -/
theorem length_filterMap_eq_countP {α β : Type} (f : α → Option β) (l : List α) :
    (l.filterMap f).length = l.countP (fun x => (f x).isSome) := by
  induction l with
  | nil => rfl
  | cons a t ih =>
    cases hfa : f a <;> simp [List.filterMap_cons, hfa, List.countP_cons, ih]

/-- A predicate's count and its negation's count partition the length. -/
theorem countP_add_countP_not {α : Type} (p : α → Bool) (l : List α) :
    l.countP p + l.countP (fun x => !(p x)) = l.length := by
  induction l with
  | nil => rfl
  | cons a t ih =>
    cases hpa : p a <;> simp [List.countP_cons, hpa] <;> omega

/-- `validOpt` keeps exactly the records the validator accepts. -/
theorem validOpt_isSome (x : RawRecord) : (validOpt x).isSome = isValidB x := by
  cases h : validateRecord x <;> simp [validOpt, isValidB, h]

/-- `errEntry` produces an entry exactly for the records the validator
rejects. -/
theorem errEntry_isSome (n : ℕ) (x : RawRecord) :
    (errEntry (n, x)).isSome = !(isValidB x) := by
  cases h : validateRecord x <;> simp [errEntry, isValidB, h]

/-- The batch error list counts exactly the failing instances. -/
theorem errors_enumFrom_length (l : List RawRecord) :
    ∀ n, ((l.enumFrom n).filterMap errEntry).length
      = l.countP (fun x => !(isValidB x)) := by
  induction l with
  | nil => intro n; rfl
  | cons a t ih =>
    intro n
    simp only [List.enumFrom, List.filterMap_cons]
    cases h : validateRecord a with
    | ok v =>
      simp [errEntry, isValidB, h, List.countP_cons, ih (n + 1)]
    | error vs =>
      simp [errEntry, isValidB, h, List.countP_cons, ih (n + 1)]

/-- Every batch error entry carries the original index of a failing
instance together with that instance's aggregated violations. -/
theorem errors_enumFrom_mem (l : List RawRecord) :
    ∀ n e, e ∈ (l.enumFrom n).filterMap errEntry →
      ∃ j x, e.index = some (n + j) ∧ l[j]? = some x ∧
        validateRecord x = .error e.errViolations := by
  induction l with
  | nil => intro n e he; simp [List.enumFrom] at he
  | cons a t ih =>
    intro n e he
    simp only [List.enumFrom, List.filterMap_cons] at he
    cases h : validateRecord a with
    | ok v =>
      rw [show errEntry (n, a) = none from by simp [errEntry, h]] at he
      obtain ⟨j, x, h1, h2, h3⟩ := ih (n + 1) e he
      refine ⟨j + 1, x, ?_, ?_, h3⟩
      · rw [h1]; congr 1; omega
      · simpa using h2
    | error vs =>
      rw [show errEntry (n, a) = some ⟨some n, vs⟩ from by simp [errEntry, h]] at he
      rcases List.mem_cons.mp he with he | he
      · subst he
        exact ⟨0, a, by simp, by simp, by simp [h]⟩
      · obtain ⟨j, x, h1, h2, h3⟩ := ih (n + 1) e he
        refine ⟨j + 1, x, ?_, ?_, h3⟩
        · rw [h1]; congr 1; omega
        · simpa using h2

/-- The schema's documented example record has no violations. -/
theorem violations_demoRecordOk : violations demoRecordOk = [] := by
  norm_num [violations, demoRecordOk, fieldOrder, fieldErrors, inRangeB,
    fieldValue, fieldRange]

/-- The bound-violating demo record has exactly the trestbps
violation. -/
theorem violations_demoRecordBad :
    violations demoRecordBad = [.field .trestbps] := by
  norm_num [violations, demoRecordBad, fieldOrder, fieldErrors, inRangeB,
    fieldValue, fieldRange]

/-- The validator accepts the demo example record. -/
theorem isValidB_demoRecordOk : isValidB demoRecordOk = true := by
  simp [isValidB, validateRecord, violations_demoRecordOk]

/-- The validator rejects the bound-violating demo record. -/
theorem isValidB_demoRecordBad : isValidB demoRecordBad = false := by
  simp [isValidB, validateRecord, violations_demoRecordBad]

/-- **C2 counterexample** At the legacy batch endpoint, the claim's own
3-item scenario (items 1 and 3 valid, item 2 violating the trestbps
bound) is rejected whole while the request is parsed: no batch response
is produced at all — no predictions for the 2 valid items and no indexed
error entry — contradicting "the batch is not aborted" and "exactly 2
predictions and 1 indexed error". -/
theorem legacy_batch_aborts_on_invalid_item :
    src_batch_parse demoBatch = .error [.field .trestbps] ∧
    demoBatch.length = 3 ∧
    demoBatch.countP isValidB = 2 := by
  refine ⟨?_, by simp [demoBatch], ?_⟩
  · simp [src_batch_parse, demoBatch, isValidB_demoRecordOk, isValidB_demoRecordBad,
      violations_demoRecordOk, violations_demoRecordBad]
  · simp [demoBatch, List.countP_cons, isValidB_demoRecordOk, isValidB_demoRecordBad]

/-- **C2 amended** In the backend batch endpoint, a batch of 1 to 100
candidate items served with a loaded model is never aborted: every item
that fails validation contributes exactly one error entry carrying that
item's original index and violation list, and the predictions list holds
exactly one row per item that validates. The legacy batch endpoint
instead validates all items while parsing the request — it reaches its
handler iff every item validates (any bound-violating item 422-aborts
the whole request) — and its handler drops per-item prediction failures
with no indexed error entry, its response carrying only the surviving
predictions and their count. -/
theorem batch_partial_failure (m : RawRecord → ℤ × ℚ × ℚ)
    (pm : RawRecord → Option (ℤ × ℚ × ℚ))
    (instances : List RawRecord)
    (hmin : 1 ≤ instances.length) (hmax : instances.length ≤ 100) :
    batch_predict (some m) instances = .ok (batch_predict_core m instances) ∧
    (batch_predict_core m instances).predictions.length
      = instances.countP isValidB ∧
    ((batch_predict_core m instances).errors.getD []).length
      = instances.countP (fun x => !(isValidB x)) ∧
    (∀ e ∈ (batch_predict_core m instances).errors.getD [],
      ∃ i x, e.index = some i ∧ instances[i]? = some x ∧
        validateRecord x = .error e.errViolations) ∧
    ((∃ l, src_batch_parse instances = .ok l) ↔ instances.all isValidB = true) ∧
    (src_batch_predict pm instances).predictions.length
      = instances.countP (fun x => (pm x).isSome) ∧
    (src_batch_predict pm instances).total_processed
      = (src_batch_predict pm instances).predictions.length := by
  have hval : (instances.filterMap validOpt).length = instances.countP isValidB := by
    rw [length_filterMap_eq_countP]
    exact List.countP_congr fun x _ => by rw [validOpt_isSome x]
  have herr0 : (instances.enum.filterMap errEntry).length
      = instances.countP (fun x => !(isValidB x)) :=
    errors_enumFrom_length instances 0
  have hmem : ∀ e ∈ instances.enum.filterMap errEntry,
      ∃ i x, e.index = some i ∧ instances[i]? = some x ∧
        validateRecord x = .error e.errViolations := by
    intro e he
    obtain ⟨j, x, h1, h2, h3⟩ := errors_enumFrom_mem instances 0 e he
    exact ⟨j, x, by simpa using h1, h2, h3⟩
  have hparse : (∃ l, src_batch_parse instances = .ok l)
      ↔ instances.all isValidB = true := by
    unfold src_batch_parse
    by_cases hall : instances.all isValidB
    · simp [hall]
    · simp [hall]
  have hsrclen : (src_batch_predict pm instances).predictions.length
      = instances.countP (fun x => (pm x).isSome) := by
    simp only [src_batch_predict]
    rw [length_filterMap_eq_countP]
    refine List.countP_congr fun x _ => ?_
    cases pm x <;> simp
  refine ⟨rfl, ?_⟩
  unfold batch_predict_core
  by_cases hempty : (instances.filterMap validOpt).isEmpty
  · have hvnil : instances.filterMap validOpt = [] := List.isEmpty_iff.mp hempty
    have hcount0 : instances.countP isValidB = 0 := by
      rw [← hval, hvnil]; rfl
    have herrpos : (instances.enum.filterMap errEntry).length ≥ 1 := by
      have hsum := countP_add_countP_not isValidB instances
      omega
    have herrne : ¬ (instances.enum.filterMap errEntry).isEmpty := by
      intro hc
      rw [List.isEmpty_iff.mp hc] at herrpos
      simp at herrpos
    simp only [hempty, if_true, herrne, if_false, if_neg herrne]
    refine ⟨by simpa using hcount0.symm, ?_, ?_, hparse, hsrclen, rfl⟩
    · simpa using herr0
    · simpa using hmem
  · have hrows : ((instances.filterMap validOpt).map (fun r =>
        let t := m r
        { prediction := t.1, probability := t.2.1,
          riskLevelOut := risk_level t.2.1, confidence := t.2.2 : PredRow })).length
        = instances.countP isValidB := by
      rw [List.length_map]; exact hval
    simp only [hempty, if_false]
    by_cases herrE : (instances.enum.filterMap errEntry).isEmpty
    · have herrnil : instances.enum.filterMap errEntry = [] := List.isEmpty_iff.mp herrE
      simp only [herrE, if_true]
      refine ⟨hrows, ?_, ?_, hparse, hsrclen, rfl⟩
      · rw [← herr0, herrnil]; rfl
      · simp
    · simp only [herrE, if_false]
      exact ⟨hrows, herr0, hmem, hparse, hsrclen, rfl⟩

/-- Witness for C2 at the 3-item batch whose middle item (0-based index
1) violates the trestbps bound: the backend yields exactly 2 predictions
and exactly 1 indexed error whose index is item 2's, while the legacy
endpoint's parse-survival condition is false for this batch. -/
theorem batch_partial_failure_witness :
    (batch_predict (some demoModel) demoBatch
        = .ok (batch_predict_core demoModel demoBatch) ∧
      (batch_predict_core demoModel demoBatch).predictions.length
        = demoBatch.countP isValidB ∧
      ((batch_predict_core demoModel demoBatch).errors.getD []).length
        = demoBatch.countP (fun x => !(isValidB x)) ∧
      (∀ e ∈ (batch_predict_core demoModel demoBatch).errors.getD [],
        ∃ i x, e.index = some i ∧ demoBatch[i]? = some x ∧
          validateRecord x = .error e.errViolations) ∧
      ((∃ l, src_batch_parse demoBatch = .ok l) ↔ demoBatch.all isValidB = true) ∧
      (src_batch_predict demoModelSrc demoBatch).predictions.length
        = demoBatch.countP (fun x => (demoModelSrc x).isSome) ∧
      (src_batch_predict demoModelSrc demoBatch).total_processed
        = (src_batch_predict demoModelSrc demoBatch).predictions.length) ∧
    demoBatch.countP isValidB = 2 ∧
    demoBatch.countP (fun x => !(isValidB x)) = 1 ∧
    (demoBatch.enum.filterMap errEntry).map (fun e => e.index) = [some 1] ∧
    demoBatch.all isValidB = false := by
  refine ⟨batch_partial_failure demoModel demoModelSrc demoBatch
      (by simp [demoBatch]) (by simp [demoBatch]), ?_, ?_, ?_, ?_⟩
  · simp [demoBatch, List.countP_cons, isValidB_demoRecordOk, isValidB_demoRecordBad]
  · simp [demoBatch, List.countP_cons, isValidB_demoRecordOk, isValidB_demoRecordBad]
  · norm_num [demoBatch, demoRecordOk, demoRecordBad, errEntry, validateRecord,
      violations, fieldOrder, fieldErrors, inRangeB, fieldValue, fieldRange,
      List.enum, List.enumFrom, List.filterMap_cons]
  · simp [demoBatch, isValidB_demoRecordBad]

end CardioRisk
